import Mathlib

/-
Verification of the contour-processing pipeline in
examples/3d/subduction/mesh/generate_surfjou.py.

The embedding follows the Python source:
* points are triples; real contours are lists of points;
* a Python dict is an association list (insertion-ordered; every
  consumer in the source sorts the keys, so ordering of the backing
  list is irrelevant to the observable results);
* Python exceptions are modelled with an explicit error type: a raise
  aborts the computation, returning the error instead of a value;
* float arithmetic is modelled over the exact rationals or reals
  (the claims under scrutiny do not hinge on rounding).
-/

namespace SurfJou


/-- Python runtime errors that the modelled code can raise. -/
inductive PyErr where
  | valueError
  | indexError
  | keyError
  | zeroDivisionError
deriving DecidableEq, Repr

/- ----------------------------------------------------------------
   SlabExtender._decimate

   Source:
     pointsD = points[::stride]
     if (len(points)-1) % stride:
         pointsD = numpy.vstack((pointsD, points[-1],))
     self.contours[key] = numpy.ascontiguousarray(pointsD)
   ---------------------------------------------------------------- -/

/-- Python slice `l[::s]` for stride `s >= 1`: the elements at
positions 0, s, 2s, .... -/
def strideSlice : List α → Nat → List α
  | [], _ => []
  | x :: xs, s => x :: strideSlice (xs.drop (s - 1)) s
termination_by l => l.length
decreasing_by
  simp only [List.length_drop, List.length_cons]
  omega

/-- The body of `SlabExtender._decimate` applied to one contour: keep every
`s`-th point and re-append the final point when its index is not a
multiple of the stride.  The length test is over the integers, as in
Python (`(len(points)-1) % stride`); on an empty contour the Python
code would raise an IndexError at `points[-1]`, a case no caller
reaches (the claims all assume at least one point). -/
def decimate (l : List α) (s : Nat) : List α :=
  let pointsD := strideSlice l s
  if ((l.length : Int) - 1) % (s : Int) ≠ 0 then
    pointsD ++ l.getLast?.toList
  else
    pointsD

/-- The effect of `SlabExtender._decimate` over a whole contour set (the source
mutates every entry of the `contours` dict in place). -/
def decimateSet (cs : List (Int × List α)) (s : Nat) : List (Int × List α) :=
  cs.map (fun kc => (kc.1, decimate kc.2 s))

/- ----------------------------------------------------------------
   SlabContoursFile.read

   Source:
     contours = {}
     points = []
     key = None
     for line in lines:
         if line.strip() == "END":
             contours[key] = numpy.array(points, dtype=numpy.float64)
             points = []
             continue
         if len(line.split()) == 1:
             key = int(line)
             continue
         pt = map(float, line.strip().split())
         points.append(pt)
     self.contours = contours

   A raw input line is modelled after tokenization: either the
   stripped line equals the terminator END, or it is the list of its
   whitespace-separated tokens.  A token records what Python float()
   and int() return on it (none = the call raises ValueError); the
   exact rationals stand in for the parsed doubles.
   ---------------------------------------------------------------- -/

/-- One whitespace-separated token of a contour-file line, together
with the outcome of Python float() and int() on it. -/
structure Token where
  asFloat : Option ℚ
  asInt : Option Int
deriving DecidableEq, Repr

/-- One line of the contour file, after stripping and splitting. -/
inductive SrcLine where
  | endline
  | toks (ts : List Token)
deriving DecidableEq, Repr

/-- Python `map(float, tokens)` with Python 2's eager map: the first token
float() rejects raises ValueError. -/
def floatTokens : List Token → Except PyErr (List ℚ)
  | [] => .ok []
  | t :: ts =>
    match t.asFloat with
    | none => .error .valueError
    | some q =>
      match floatTokens ts with
      | .error e => .error e
      | .ok qs => .ok (q :: qs)

/-- Python `contours[key] = value` on the dict modelled as an association
list: overwrite an existing binding, else append. -/
def dictInsert (d : List (Option Int × List (List ℚ))) (k : Option Int)
    (v : List (List ℚ)) : List (Option Int × List (List ℚ)) :=
  if d.any (fun p => p.1 == k) then
    d.map (fun p => if p.1 == k then (k, v) else p)
  else
    d ++ [(k, v)]

/-- The loop of `SlabContoursFile.read`: current key (initially the
Python None), current point list, and the committed contours. -/
def readGo : List SrcLine → Option Int → List (List ℚ) →
    List (Option Int × List (List ℚ)) →
    Except PyErr (List (Option Int × List (List ℚ)))
  | [], _, _, contours => .ok contours
  | .endline :: rest, key, points, contours =>
    readGo rest key [] (dictInsert contours key points)
  | .toks [t] :: rest, key, points, contours =>
    match t.asInt with
    | none => .error .valueError
    | some n => readGo rest (some n) points contours
  | .toks ts :: rest, key, points, contours =>
    match floatTokens ts with
    | .error e => .error e
    | .ok pt => readGo rest key (points ++ [pt]) contours

/-- Function `SlabContoursFile.read` on a tokenized line list. -/
def readContours (lines : List SrcLine) :
    Except PyErr (List (Option Int × List (List ℚ))) :=
  readGo lines none [] []

/- ----------------------------------------------------------------
   JournalFile.addContour

   Source:
     self.file.write("# Contour\n")
     self.file.write("create vertex x ... \n" % tuple(points[0]))
     self.file.write("${pBegin=Id('vertex')}\n")
     for pt in points[1:]:
         self.file.write("create vertex x ... \n" % tuple(pt))
     self.file.write("${pEnd=Id('vertex')}\n"
                     "create curve spline vertex {pBegin} to {pEnd} delete\n\n")

   The journal stream is modelled as the list of commands written, in
   order; on an empty point sequence `points[0]` raises IndexError
   AFTER the comment line has been written, so the model returns the
   partial output next to the error. -/

/-- One command written to the journal stream by `addContour`. -/
inductive JCmd (P : Type) where
  | contourComment
  | createVertex (p : P)
  | idCaptureBegin
  | idCaptureEnd
  | curveSpline
deriving DecidableEq, Repr

/-- Method `JournalFile.addContour`: the commands written, in order, and the
exception raised, if any. -/
def addContour (points : List P) : List (JCmd P) × Option PyErr :=
  match points with
  | [] => ([.contourComment], some .indexError)
  | p :: rest =>
    (([.contourComment, .createVertex p, .idCaptureBegin] ++
        rest.map .createVertex) ++ [.idCaptureEnd, .curveSpline], none)

/-- The point of a vertex-creation command. -/
def vertexOf : JCmd P → Option P
  | .createVertex p => some p
  | _ => none

/- ----------------------------------------------------------------
   SlabExtender: contour selection queries and up-dip extension.

   Contours handed to the extender live in the projected mesh frame:
   a contour is a list of (x, y, z) triples and the contour dict maps
   an integer depth key to its contour.  Reals model the floats; the
   claims under scrutiny are exact-arithmetic statements.
   ---------------------------------------------------------------- -/

/-- A point of a contour in the mesh frame. -/
abbrev Pt : Type := ℝ × ℝ × ℝ

/-- A contour: an ordered list of points. -/
abbrev Contour : Type := List Pt

/-- A contour dict: association list from depth key to contour. -/
abbrev ContourSet : Type := List (Int × Contour)

/-- Python `0 == k % spacingKm` for an int key and a float spacing:
float modulo is k - spacing*floor(k/spacing). -/
def pyModZero (k : Int) (spacingKm : ℚ) : Bool :=
  ((k : ℚ) - spacingKm * (⌊(k : ℚ) / spacingKm⌋ : ℤ)) == 0

/-- Method `SlabExtender.getContours`: real contours whose key the spacing
divides, sorted ascending by key.

Source:
    keys = []
    for k in self.contours.keys():
        if 0 == k % spacingKm:
            keys.append(k)
    contours = [self.contours[k] for k in sorted(keys)]
-/
def getContours (contours : ContourSet) (spacingKm : ℚ) : List Contour :=
  let keys := (contours.map Prod.fst).filter (fun k => pyModZero k spacingKm)
  (keys.insertionSort (· ≤ ·)).map (fun k => (contours.lookup k).getD [])

/-- Method `SlabExtender.getUpDipContours`: the synthetic contours listed by
ascending key.

Source:
    contoursUpDip = [self.contoursUpDip[k]
                     for k in sorted(self.contoursUpDip.keys())]
-/
def getUpDipContours (contoursUpDip : ContourSet) : List Contour :=
  ((contoursUpDip.map Prod.fst).insertionSort (· ≤ ·)).map
    (fun k => (contoursUpDip.lookup k).getD [])

/-- Method `SlabExtender.getAllContours`: up-dip contours then real contours. -/
def getAllContours (contours contoursUpDip : ContourSet)
    (spacingKm : ℚ) : List Contour :=
  getUpDipContours contoursUpDip ++ getContours contours spacingKm

/-- The synthetic contour count of `addUpDipContours`:
`int(math.ceil(math.log((extendDist/distHoriz)+1)/math.log(2.0)))`
(the argument `extendDist` is already in meters). -/
noncomputable def numUpDipContours (distHoriz extendDist : ℝ) : Int :=
  ⌈Real.log (extendDist / distHoriz + 1) / Real.log 2⌉

open Classical in
/-- Method `SlabExtender.addUpDipContours`.

Source:
    key = min(self.contours.keys())
    contourTop = self.contours[key]
    zTop = contourTop[0][2]
    distHoriz = (elevKm*1.0e+3-zTop)/math.tan(dipDeg*math.pi/180.0)
    dx = -distHoriz*math.cos(strikeDeg*math.pi/180.0)
    dy = distHoriz*math.sin(strikeDeg*math.pi/180.0)
    contoursUpDip = {}
    numContours = int(math.ceil(math.log((extendDistKm*1.0e+3/distHoriz)+1)
                                /math.log(2.0)))
    for i in xrange(numContours):
        contour = numpy.array(contourTop)
        contour[:,0] += (2**i)*dx
        contour[:,1] += (2**i)*dy
        contour[:,2] = elevKm*1.0e+3
        contoursUpDip[-i] = contour

Raises modelled: min() of an empty dict (ValueError), contourTop[0]
of an empty contour (IndexError), division by a zero tan or a zero
distHoriz (ZeroDivisionError), math.log of a non-positive argument
(ValueError).  xrange of a non-positive count is empty. -/
noncomputable def addUpDipContours (contours : ContourSet)
    (elevKm strikeDeg dipDeg extendDistKm : ℝ) : Except PyErr ContourSet :=
  match (contours.map Prod.fst).min? with
  | none => .error .valueError
  | some key =>
    match contours.lookup key with
    | none => .error .keyError
    | some contourTop =>
      match contourTop.head? with
      | none => .error .indexError
      | some p0 =>
        let zTop := p0.2.2
        if Real.tan (dipDeg * Real.pi / 180) = 0 then
          .error .zeroDivisionError
        else
          let distHoriz :=
            (elevKm * 1000 - zTop) / Real.tan (dipDeg * Real.pi / 180)
          let dx := -distHoriz * Real.cos (strikeDeg * Real.pi / 180)
          let dy := distHoriz * Real.sin (strikeDeg * Real.pi / 180)
          if distHoriz = 0 then
            .error .zeroDivisionError
          else if extendDistKm * 1000 / distHoriz + 1 ≤ 0 then
            .error .valueError
          else
            .ok ((List.range
                (numUpDipContours distHoriz (extendDistKm * 1000)).toNat).map
              (fun (i : Nat) => (-(i : Int), contourTop.map (fun p =>
                (p.1 + (2 : ℝ) ^ i * dx, p.2.1 + (2 : ℝ) ^ i * dy,
                  elevKm * 1000)))))

/-- The relation on contour-set entries used by the claim about
depth-independence: equal keys, and pointwise-equal (x, y). -/
def entryRel (a b : Int × Contour) : Prop :=
  a.1 = b.1 ∧ List.Forall₂ (fun (p q : Pt) => p.1 = q.1 ∧ p.2.1 = q.2.1) a.2 b.2

/-- The depth of the first point of the minimal-key contour - the
only depth value `addUpDipContours` ever reads. -/
def zTopOf (c : ContourSet) : Option ℝ :=
  (((c.map Prod.fst).min?.bind (fun k => c.lookup k)).bind List.head?).map
    (fun p => p.2.2)

theorem strideSlice_length_aux (s : Nat) (hs : 1 ≤ s) :
    ∀ (n : Nat) (l : List α), l.length ≤ n →
      (strideSlice l s).length = (l.length + s - 1) / s := by
  intro n
  induction n with
  | zero =>
    intro l hl
    have : l = [] := List.length_eq_zero.mp (Nat.le_zero.mp hl)
    subst this
    have hz : (0 + s - 1) / s = 0 := Nat.div_eq_of_lt (by omega)
    simp only [strideSlice, List.length_nil, hz]
  | succ m ih =>
    intro l hl
    match l with
    | [] =>
      have hz : (0 + s - 1) / s = 0 := Nat.div_eq_of_lt (by omega)
      simp only [strideSlice, List.length_nil, hz]
    | x :: xs =>
    have hxs : (xs.drop (s - 1)).length ≤ m := by
      simp only [List.length_drop]
      simp only [List.length_cons] at hl
      omega
    rw [strideSlice, List.length_cons, ih _ hxs, List.length_drop, List.length_cons]
    rcases le_or_lt (s - 1) xs.length with h | h
    · have h1 : xs.length - (s - 1) + s - 1 = xs.length := by omega
      rw [h1]
      have h2 : xs.length + 1 + s - 1 = xs.length + s := by omega
      rw [h2, Nat.add_div_right _ (by omega)]
    · have h1 : xs.length - (s - 1) + s - 1 = s - 1 := by omega
      rw [h1, Nat.div_eq_of_lt (by omega)]
      have h2 : xs.length + 1 + s - 1 = xs.length + s := by omega
      rw [h2]
      have h3 : xs.length + s < 2 * s := by omega
      have h4 : (xs.length + s) / s = 1 :=
        Nat.div_eq_of_lt_le (by omega) (by omega)
      omega

theorem strideSlice_length (s : Nat) (hs : 1 ≤ s) (l : List α) :
    (strideSlice l s).length = (l.length + s - 1) / s :=
  strideSlice_length_aux s hs l.length l (Nat.le_refl _)

theorem strideSlice_get_aux (s : Nat) (hs : 1 ≤ s) :
    ∀ (n : Nat) (l : List α), l.length ≤ n →
      ∀ i : Nat, (strideSlice l s)[i]? = l[i * s]? := by
  intro n
  induction n with
  | zero =>
    intro l hl
    have : l = [] := List.length_eq_zero.mp (Nat.le_zero.mp hl)
    subst this
    simp [strideSlice]
  | succ m ih =>
    intro l hl i
    match l with
    | [] => simp [strideSlice]
    | x :: xs =>
    have hxs : (xs.drop (s - 1)).length ≤ m := by
      simp only [List.length_drop]
      simp only [List.length_cons] at hl
      omega
    cases i with
    | zero => simp [strideSlice]
    | succ j =>
      rw [strideSlice]
      simp only [List.getElem?_cons_succ]
      rw [ih _ hxs j, List.getElem?_drop]
      have hk : (j + 1) * s = (s - 1 + j * s) + 1 := by
        have hsm : (j + 1) * s = j * s + s := by ring
        omega
      rw [hk, List.getElem?_cons_succ]

theorem strideSlice_get (s : Nat) (hs : 1 ≤ s) (l : List α) (i : Nat) :
    (strideSlice l s)[i]? = l[i * s]? :=
  strideSlice_get_aux s hs l.length l (Nat.le_refl _) i

theorem decimate_eq (l : List α) (hl : l ≠ []) (s : Nat) :
    decimate l s =
      if (l.length - 1) % s = 0 then strideSlice l s
      else strideSlice l s ++ [l.getLast hl] := by
  have hlen : 1 ≤ l.length := List.length_pos.mpr hl
  have hcast : (l.length : Int) - 1 = ((l.length - 1 : Nat) : Int) := by
    omega
  have hmod : ((l.length : Int) - 1) % (s : Int) = 0 ↔ (l.length - 1) % s = 0 := by
    rw [hcast]
    rw [← Int.natCast_mod]
    exact Int.natCast_eq_zero
  have hlast : l.getLast?.toList = [l.getLast hl] := by
    rw [List.getLast?_eq_getLast l hl]
    rfl
  rw [decimate]
  by_cases h : (l.length - 1) % s = 0
  · rw [if_neg (by simp [hmod, h]), if_pos h]
  · rw [if_pos (by simp [hmod, h]), if_neg h, hlast]

theorem decimate_get (l : List α) (s : Nat) (hl : l ≠ []) (hs : 1 ≤ s)
    (i : Nat) (hi : i * s < l.length) : (decimate l s)[i]? = l[i * s]? := by
  have hlt : i < (strideSlice l s).length := by
    rw [strideSlice_length s hs]
    have h1 : i * s ≤ l.length - 1 := by omega
    have h2 : i ≤ (l.length - 1) / s := (Nat.le_div_iff_mul_le (by omega)).mpr h1
    have h4 : l.length - 1 + s = l.length + s - 1 := by omega
    have h3 : (l.length - 1) / s + 1 = (l.length + s - 1) / s := by
      rw [← h4]
      exact (Nat.add_div_right _ (by omega)).symm
    omega
  rw [decimate_eq l hl s]
  by_cases h : (l.length - 1) % s = 0
  · rw [if_pos h, strideSlice_get s hs]
  · rw [if_neg h, List.getElem?_append_left hlt, strideSlice_get s hs]

theorem decimate_length (l : List α) (s : Nat) (hl : l ≠ []) (hs : 1 ≤ s) :
    (decimate l s).length = (l.length - 1 + (s - 1)) / s + 1 := by
  have hlen : 1 ≤ l.length := List.length_pos.mpr hl
  rw [decimate_eq l hl s]
  have hq := Nat.div_add_mod (l.length - 1) s
  set q := (l.length - 1) / s with hqdef
  set r := (l.length - 1) % s with hrdef
  have hr : r < s := Nat.mod_lt _ (by omega)
  by_cases h : r = 0
  · rw [if_pos h, strideSlice_length s hs]
    have h1 : l.length + s - 1 = s * q + s := by omega
    have h2 : l.length - 1 + (s - 1) = s * q + (s - 1) := by omega
    rw [h1, h2, Nat.mul_add_div (by omega), Nat.mul_add_div (by omega),
      Nat.div_eq_of_lt (show s - 1 < s by omega), Nat.div_self (show 0 < s by omega)]
  · rw [if_neg h, List.length_append, strideSlice_length s hs]
    have h1 : l.length + s - 1 = s * q + (r + s) := by omega
    have h2 : l.length - 1 + (s - 1) = s * q + (r - 1 + s) := by omega
    rw [h1, h2, Nat.mul_add_div (by omega), Nat.mul_add_div (by omega)]
    have h3 : (r + s) / s = 1 := Nat.div_eq_of_lt_le (by omega) (by omega)
    have h4 : (r - 1 + s) / s = 1 := Nat.div_eq_of_lt_le (by omega) (by omega)
    simp [h3, h4]

theorem decimate_head (l : List α) (s : Nat) (hl : l ≠ []) :
    (decimate l s).head? = l.head? := by
  match l with
  | x :: xs =>
    rw [decimate_eq (x :: xs) hl s]
    by_cases h : ((x :: xs).length - 1) % s = 0
    · rw [if_pos h, strideSlice]
      rfl
    · rw [if_neg h, strideSlice]
      rfl

theorem decimate_getLast (l : List α) (s : Nat) (hl : l ≠ []) (hs : 1 ≤ s) :
    (decimate l s).getLast? = l.getLast? := by
  have hlen : 1 ≤ l.length := List.length_pos.mpr hl
  rw [decimate_eq l hl s]
  have hq := Nat.div_add_mod (l.length - 1) s
  by_cases h : (l.length - 1) % s = 0
  · rw [if_pos h]
    have hm : (strideSlice l s).length = (l.length - 1) / s + 1 := by
      rw [strideSlice_length s hs]
      have h1 : l.length + s - 1 = s * ((l.length - 1) / s) + s := by omega
      rw [h1, Nat.mul_add_div (by omega), Nat.div_self (show 0 < s by omega)]
    rw [List.getLast?_eq_getElem?, List.getLast?_eq_getElem?, hm]
    have h2 : (l.length - 1) / s + 1 - 1 = (l.length - 1) / s := Nat.add_sub_cancel _ _
    rw [h2, strideSlice_get s hs]
    congr 1
    exact Nat.div_mul_cancel (Nat.dvd_of_mod_eq_zero h)
  · rw [if_neg h, List.getLast?_concat, List.getLast?_eq_getLast l hl]

theorem strideSlice_one (l : List α) : strideSlice l 1 = l := by
  induction l with
  | nil => simp [strideSlice]
  | cons x xs ih =>
    rw [strideSlice]
    simpa using ih

theorem decimate_one (l : List α) (hl : l ≠ []) : decimate l 1 = l := by
  rw [decimate_eq l hl 1]
  rw [if_pos (Nat.mod_one _), strideSlice_one]

theorem decimate_small (l : List α) (s : Nat) (hl : l ≠ []) (hs : 1 ≤ s)
    (hlen : l.length ≤ 2) : decimate l s = l := by
  match l with
  | [a] =>
    rw [decimate_eq [a] hl s]
    rw [if_pos (by simp)]
    simp [strideSlice]
  | [a, b] =>
    rcases eq_or_lt_of_le hs with h1 | h2
    · rw [← h1]
      exact decimate_one [a, b] hl
    · rw [decimate_eq [a, b] hl s]
      have hmod : ¬([a, b].length - 1) % s = 0 := by
        have h1 : (2 - 1) % s = 1 := Nat.mod_eq_of_lt (by omega)
        show ¬(2 - 1) % s = 0
        omega
      rw [if_neg hmod]
      have hdrop : ([b].drop (s - 1)) = ([] : List α) := by
        apply List.drop_eq_nil_of_le
        simp only [List.length_singleton]
        omega
      rw [strideSlice, hdrop]
      simp [strideSlice]
  | _ :: _ :: _ :: _ => simp at hlen

theorem decimate_ne_nil (l : List α) (s : Nat) (hl : l ≠ []) :
    decimate l s ≠ [] := by
  intro hcontra
  have h := decimate_head l s hl
  rw [hcontra] at h
  match l with
  | x :: xs => simp at h

theorem decimate_not_fixed (l : List α) (s : Nat) (hl : l ≠ []) (hs : 2 ≤ s)
    (hlen : 3 ≤ l.length) : decimate l s ≠ l := by
  intro hcontra
  have hL := decimate_length l s hl (by omega)
  rw [hcontra] at hL
  obtain ⟨a, ha⟩ : ∃ a, l.length = a + 3 := ⟨l.length - 3, by omega⟩
  obtain ⟨b, hb⟩ : ∃ b, s = b + 2 := ⟨s - 2, by omega⟩
  rw [ha, hb] at hL
  have hnum : a + 3 - 1 + (b + 2 - 1) = a + b + 3 := by omega
  rw [hnum] at hL
  have hdivlt : (a + b + 3) / (b + 2) < a + 2 := by
    rw [Nat.div_lt_iff_lt_mul (by omega)]
    have hexp : (a + 2) * (b + 2) = a * b + 2 * a + 2 * b + 4 := by ring
    omega
  omega

/-- C1: for every contour with at least one point and every stride
s >= 1, `_decimate` keeps the points at positions 0, s, 2s, ...,
the output has exactly ceil((n-1)/s) + 1 points (written
(n - 1 + (s - 1)) / s + 1 in natural-number arithmetic), and the
first and last points of the output equal the first and last points
of the input exactly. -/
theorem decimate_keeps_stride_and_endpoints (l : List α) (s : Nat)
    (hl : l ≠ []) (hs : 1 ≤ s) :
    (decimate l s).length = (l.length - 1 + (s - 1)) / s + 1 ∧
    (decimate l s).head? = l.head? ∧
    (decimate l s).getLast? = l.getLast? ∧
    ∀ i : Nat, i * s < l.length → (decimate l s)[i]? = l[i * s]? :=
  ⟨decimate_length l s hl hs, decimate_head l s hl,
    decimate_getLast l s hl hs, fun i hi => decimate_get l s hl hs i hi⟩

/-- Witness for C1 at the claim's own example: a 5-point contour with
stride 2 decimates to the points at indices 0, 2, 4. -/
theorem decimate_keeps_stride_and_endpoints_witness :
    (([0, 1, 2, 3, 4] : List Nat) ≠ [] ∧ 1 ≤ 2) ∧
    ((decimate ([0, 1, 2, 3, 4] : List Nat) 2).length =
        (([0, 1, 2, 3, 4] : List Nat).length - 1 + (2 - 1)) / 2 + 1 ∧
      (decimate ([0, 1, 2, 3, 4] : List Nat) 2).head? =
        ([0, 1, 2, 3, 4] : List Nat).head? ∧
      (decimate ([0, 1, 2, 3, 4] : List Nat) 2).getLast? =
        ([0, 1, 2, 3, 4] : List Nat).getLast? ∧
      ∀ i : Nat, i * 2 < ([0, 1, 2, 3, 4] : List Nat).length →
        (decimate ([0, 1, 2, 3, 4] : List Nat) 2)[i]? =
          ([0, 1, 2, 3, 4] : List Nat)[i * 2]?) ∧
    decimate ([0, 1, 2, 3, 4] : List Nat) 2 = [0, 2, 4] :=
  ⟨⟨by decide, by decide⟩,
    decimate_keeps_stride_and_endpoints [0, 1, 2, 3, 4] 2 (by decide) (by decide),
    by simp [decimate, strideSlice]⟩

/-- C5 counterexample: decimating a second time with the same stride
is NOT a no-op.  A contour set holding one 5-point contour decimated
with stride 2 gives the 3 points at indices 0, 2, 4; decimating that
result again with stride 2 gives only 2 points (indices 0 and 4 of
the intermediate contour). -/
theorem decimateSet_not_idempotent :
    decimateSet (decimateSet [((0 : Int), ([0, 1, 2, 3, 4] : List Nat))] 2) 2 ≠
      decimateSet [((0 : Int), ([0, 1, 2, 3, 4] : List Nat))] 2 := by
  have h1 : decimateSet [((0 : Int), ([0, 1, 2, 3, 4] : List Nat))] 2 =
      [(0, [0, 2, 4])] := by
    simp [decimateSet, decimate, strideSlice]
  have h2 : decimateSet [((0 : Int), ([0, 2, 4] : List Nat))] 2 =
      [(0, [0, 4])] := by
    simp [decimateSet, decimate, strideSlice]
  rw [h1, h2]
  decide

/-- C5 amended: for contour sets whose contours are all nonempty and
stride s >= 1, a second application of `_decimate` with the same
stride is a no-op if and only if s = 1 (stride-1 decimation is the
identity) or every contour of the once-decimated set has at most two
points; otherwise the second application decimates further. -/
theorem decimateSet_idempotent_iff (cs : List (Int × List α)) (s : Nat)
    (hs : 1 ≤ s) (hne : ∀ p ∈ cs, p.2 ≠ ([] : List α)) :
    decimateSet (decimateSet cs s) s = decimateSet cs s ↔
      (s = 1 ∨ ∀ p ∈ cs, (decimate p.2 s).length ≤ 2) := by
  have hmap : decimateSet (decimateSet cs s) s =
      cs.map (fun kc => (kc.1, decimate (decimate kc.2 s) s)) := by
    rw [decimateSet, decimateSet, List.map_map]
    rfl
  rw [hmap, decimateSet, List.map_inj_left]
  constructor
  · intro hall
    by_cases h1 : s = 1
    · exact Or.inl h1
    · refine Or.inr (fun p hp => ?_)
      have hpair := hall p hp
      have heq : decimate (decimate p.2 s) s = decimate p.2 s :=
        congrArg Prod.snd hpair
      by_contra hlen
      exact decimate_not_fixed (decimate p.2 s) s
        (decimate_ne_nil p.2 s (hne p hp)) (by omega) (by omega) heq
  · intro hor p hp
    rcases hor with h1 | h2
    · subst h1
      rw [decimate_one p.2 (hne p hp), decimate_one p.2 (hne p hp)]
    · rw [decimate_small (decimate p.2 s) s
        (decimate_ne_nil p.2 s (hne p hp)) hs (h2 p hp)]

/-- Witness for the amended C5: with stride 1 the second application
is a no-op on a concrete two-contour set. -/
theorem decimateSet_idempotent_iff_witness :
    (1 ≤ 1 ∧ (∀ p ∈ [((0 : Int), ([5, 6, 7] : List Nat)), (10, [8, 9])],
        p.2 ≠ ([] : List Nat))) ∧
    (decimateSet (decimateSet
          [((0 : Int), ([5, 6, 7] : List Nat)), (10, [8, 9])] 1) 1 =
        decimateSet [((0 : Int), ([5, 6, 7] : List Nat)), (10, [8, 9])] 1 ↔
      (1 = 1 ∨ ∀ p ∈ [((0 : Int), ([5, 6, 7] : List Nat)), (10, [8, 9])],
        (decimate p.2 1).length ≤ 2)) :=
  ⟨⟨by decide, by decide⟩,
    decimateSet_idempotent_iff [((0 : Int), ([5, 6, 7] : List Nat)), (10, [8, 9])]
      1 (by decide) (by decide)⟩

theorem floatTokens_error (ts : List Token) (hbad : ∃ t ∈ ts, t.asFloat = none) :
    floatTokens ts = .error .valueError := by
  induction ts with
  | nil => simp at hbad
  | cons t ts ih =>
    rw [floatTokens]
    rcases hbad with ⟨u, hu, hnone⟩
    rcases List.mem_cons.mp hu with h | h
    · subst h
      rw [hnone]
    · cases hf : t.asFloat with
      | none => rfl
      | some q => rw [ih ⟨u, h, hnone⟩]

/-- C6 counterexample: `read` does NOT fail in either of the two
situations the claim names.  (1) The terminator END with no open
depth key does not raise: the code simply commits the current
(empty) point list under the Python None key.  (2) A numeric line
that cannot be parsed as THREE floats — here two floats — is accepted
as a 2-component point and committed without error. -/
theorem read_no_failure_on_claimed_errors :
    readContours [.endline] = .ok [(none, [])] ∧
    readContours [.toks [⟨some 1, none⟩, ⟨some 2, none⟩], .endline] =
      .ok [(none, [[1, 2]])] := by
  constructor
  · rfl
  · rfl

/-- C6 amended: `read` raises (ValueError, the concrete exception
behind the spec's FormatError) when a line whose token count differs
from 1 contains a token float() rejects, aborting the run at that
line with nothing committed at that step; but the terminator END
with no open depth key does not fail: it commits the current point
list under the Python None key and parsing continues. -/
theorem read_error_behavior (ts : List Token) (hlen : ts.length ≠ 1)
    (hbad : ∃ t ∈ ts, t.asFloat = none) :
    (∀ rest key points contours,
      readGo (.toks ts :: rest) key points contours = .error .valueError) ∧
    (∀ rest points contours,
      readGo (.endline :: rest) none points contours =
        readGo rest none [] (dictInsert contours none points)) := by
  constructor
  · intro rest key points contours
    match ts, hlen, hbad with
    | [], _, hbad => simp at hbad
    | [t], hlen, _ => simp at hlen
    | a :: b :: r, _, hbad =>
      have hf : floatTokens (a :: b :: r) = .error .valueError :=
        floatTokens_error _ hbad
      simp [readGo, hf]
  · intro rest points contours
    rfl

/-- Witness for the amended C6 at a concrete malformed line. -/
theorem read_error_behavior_witness :
    (([⟨none, none⟩, ⟨none, none⟩] : List Token).length ≠ 1 ∧
      (∃ t ∈ ([⟨none, none⟩, ⟨none, none⟩] : List Token), t.asFloat = none)) ∧
    ((∀ rest key points contours,
        readGo (.toks [⟨none, none⟩, ⟨none, none⟩] :: rest) key points contours =
          .error .valueError) ∧
      (∀ rest points contours,
        readGo (.endline :: rest) none points contours =
          readGo rest none [] (dictInsert contours none points))) :=
  ⟨⟨by decide, by decide⟩,
    read_error_behavior [⟨none, none⟩, ⟨none, none⟩] (by decide) (by decide)⟩

/-- C9: parsing the input
"10\n1.0 2.0 10.0\n2.0 3.0 10.0\nEND\n20\n1.0 2.0 20.0\n2.0 3.0 20.0\nEND\n"
(tokenized line by line; "10" and "20" are the only single-token
lines and parse as ints, the three-token lines parse as floats, int()
rejects the decimal-point tokens) yields exactly the keys 10 and 20,
each contour holding exactly its two points in input order. -/
theorem read_roundtrip :
    readContours
      [.toks [⟨some 10, some 10⟩],
       .toks [⟨some 1, none⟩, ⟨some 2, none⟩, ⟨some 10, none⟩],
       .toks [⟨some 2, none⟩, ⟨some 3, none⟩, ⟨some 10, none⟩],
       .endline,
       .toks [⟨some 20, some 20⟩],
       .toks [⟨some 1, none⟩, ⟨some 2, none⟩, ⟨some 20, none⟩],
       .toks [⟨some 2, none⟩, ⟨some 3, none⟩, ⟨some 20, none⟩],
       .endline] =
      .ok [(some 10, [[1, 2, 10], [2, 3, 10]]),
           (some 20, [[1, 2, 20], [2, 3, 20]])] := by
  rfl

/-- C7 counterexample: `addContour` performs NO two-point validation.
On a single-point sequence it raises nothing and writes one
vertex-creation command and one spline-curve command (the claim says
it raises a ValidationError and emits neither). -/
theorem addContour_single_point_succeeds :
    addContour [((0 : ℚ), (0 : ℚ), (0 : ℚ))] =
      ([.contourComment, .createVertex ((0 : ℚ), (0 : ℚ), (0 : ℚ)),
        .idCaptureBegin, .idCaptureEnd, .curveSpline], none) := by
  rfl

/-- C7 amended: `addContour` never validates the point count.  On an
empty sequence it fails with IndexError after writing only the
contour comment — no vertex or curve command; on ANY nonempty
sequence, including a single point, it raises nothing and emits one
vertex-creation command per point in input order followed by one
spline-curve command as the final command. -/
theorem addContour_spec (pts : List P) :
    (addContour ([] : List P) = ([.contourComment], some .indexError)) ∧
    (pts ≠ [] →
      (addContour pts).2 = none ∧
      (addContour pts).1.filterMap vertexOf = pts ∧
      (addContour pts).1.getLast? = some .curveSpline) := by
  refine ⟨rfl, fun hne => ?_⟩
  match pts with
  | p :: rest =>
    refine ⟨rfl, ?_, ?_⟩
    · show (([JCmd.contourComment, JCmd.createVertex p, JCmd.idCaptureBegin] ++
          rest.map JCmd.createVertex) ++
            [JCmd.idCaptureEnd, JCmd.curveSpline]).filterMap vertexOf = p :: rest
      rw [List.filterMap_append, List.filterMap_append]
      have hmap : List.filterMap (vertexOf ∘ JCmd.createVertex) rest = rest := by
        have : (vertexOf ∘ JCmd.createVertex) = fun q : P => some q := by
          funext q
          rfl
        rw [this]
        exact List.filterMap_some rest
      simp [vertexOf, List.filterMap_map, hmap]
    · show (([JCmd.contourComment, JCmd.createVertex p, JCmd.idCaptureBegin] ++
          rest.map JCmd.createVertex) ++
            [JCmd.idCaptureEnd, JCmd.curveSpline]).getLast? = some JCmd.curveSpline
      have hsplit :
          ([JCmd.contourComment, JCmd.createVertex p, JCmd.idCaptureBegin] ++
              rest.map JCmd.createVertex) ++
            [JCmd.idCaptureEnd, JCmd.curveSpline] =
          (([JCmd.contourComment, JCmd.createVertex p, JCmd.idCaptureBegin] ++
              rest.map JCmd.createVertex) ++
            [JCmd.idCaptureEnd]) ++ [JCmd.curveSpline] := by
        simp
      rw [hsplit, List.getLast?_concat]

/-- Witness for the amended C7 at a concrete single-point contour. -/
theorem addContour_spec_witness :
    ([((1 : ℚ), (2 : ℚ), (3 : ℚ))] ≠ []) ∧
    ((addContour ([] : List (ℚ × ℚ × ℚ)) =
        ([.contourComment], some .indexError)) ∧
      ([((1 : ℚ), (2 : ℚ), (3 : ℚ))] ≠ [] →
        (addContour [((1 : ℚ), (2 : ℚ), (3 : ℚ))]).2 = none ∧
        (addContour [((1 : ℚ), (2 : ℚ), (3 : ℚ))]).1.filterMap vertexOf =
          [((1 : ℚ), (2 : ℚ), (3 : ℚ))] ∧
        (addContour [((1 : ℚ), (2 : ℚ), (3 : ℚ))]).1.getLast? =
          some .curveSpline)) :=
  ⟨by decide, addContour_spec [((1 : ℚ), (2 : ℚ), (3 : ℚ))]⟩

theorem lookup_shifted_range {β : Type} :
    ∀ (N : Nat) (c : Int) (g : Nat → β) (i : Nat), i < N →
      (((List.range N).map (fun (j : Nat) => (c - (j : Int), g j))).lookup
        (c - (i : Int))) = some (g i) := by
  intro N
  induction N with
  | zero => intro c g i hi; omega
  | succ m ih =>
    intro c g i hi
    rw [List.range_succ_eq_map, List.map_cons, List.map_map]
    cases i with
    | zero =>
      simp [List.lookup]
    | succ k =>
      have hne : ((c - ((k + 1 : Nat) : Int)) == (c - ((0 : Nat) : Int))) = false := by
        simp only [beq_eq_false_iff_ne, ne_eq]
        intro hcontra
        omega
      rw [List.lookup, hne]
      have hcomp : ((fun (j : Nat) => (c - (j : Int), g j)) ∘ Nat.succ) =
          (fun (j : Nat) => ((c - 1) - (j : Int), g (j + 1))) := by
        funext j
        simp only [Function.comp_apply, Nat.succ_eq_add_one]
        have harg : c - ((j + 1 : Nat) : Int) = (c - 1) - (j : Int) := by
          push_cast
          ring
        rw [harg]
      rw [hcomp]
      have hkey : c - ((k + 1 : Nat) : Int) = (c - 1) - (k : Int) := by
        push_cast
        ring
      rw [hkey, ih (c - 1) (fun j => g (j + 1)) k (by omega)]

theorem negRange_sort (N : Nat) :
    ((List.range N).map (fun (j : Nat) => -(j : Int))).insertionSort (· ≤ ·) =
      ((List.range N).map (fun (j : Nat) => -(j : Int))).reverse := by
  have hperm : (((List.range N).map
      (fun (j : Nat) => -(j : Int))).insertionSort (· ≤ ·)).Perm
      (((List.range N).map (fun (j : Nat) => -(j : Int))).reverse) :=
    (List.perm_insertionSort _ _).trans
      ((List.range N).map (fun (j : Nat) => -(j : Int))).reverse_perm.symm
  have h1 : List.Sorted (· ≤ ·) (((List.range N).map
      (fun (j : Nat) => -(j : Int))).insertionSort (· ≤ ·)) :=
    List.sorted_insertionSort _ _
  have h2 : List.Sorted (· ≤ ·)
      (((List.range N).map (fun (j : Nat) => -(j : Int))).reverse) := by
    rw [List.Sorted, List.pairwise_reverse, List.pairwise_map]
    exact (List.pairwise_lt_range N).imp (fun h => by omega)
  exact List.eq_of_perm_of_sorted hperm h1 h2

theorem getUpDipContours_on_range (N : Nat) (f : Nat → Contour) :
    getUpDipContours
        ((List.range N).map (fun (i : Nat) => (-(i : Int), f i))) =
      ((List.range N).reverse).map f := by
  rw [getUpDipContours, List.map_map]
  have hkeys : ((List.range N).map
      ((fun p : Int × Contour => p.1) ∘ (fun (i : Nat) => (-(i : Int), f i)))) =
      (List.range N).map (fun (j : Nat) => -(j : Int)) := by
    apply List.map_congr_left
    intro a _
    rfl
  rw [hkeys, negRange_sort, ← List.map_reverse, List.map_map]
  apply List.map_congr_left
  intro a ha
  have haN : a < N := by
    have := List.mem_reverse.mp ha
    exact List.mem_range.mp this
  simp only [Function.comp_apply]
  have hval : (((List.range N).map
      (fun (i : Nat) => (-(i : Int), f i))).lookup (-(a : Int))) = some (f a) := by
    have hform : ((List.range N).map (fun (i : Nat) => (-(i : Int), f i))) =
        ((List.range N).map (fun (i : Nat) => ((0 : Int) - (i : Int), f i))) := by
      apply List.map_congr_left
      intro b _
      simp
    rw [hform]
    have := lookup_shifted_range N (0 : Int) f a haN
    simpa using this
  rw [hval]
  rfl

/-- C4 counterexample: with two synthetic contours (keys 0 and -1)
`getUpDipContours` lists them by ASCENDING key, so the contour at
key -1 (index 1, the one farther from the reference) comes first and
the index-0 contour comes last — not first as the claim states. -/
theorem getUpDipContours_index0_not_first :
    (getUpDipContours
        [((0 : Int), [((0 : ℝ), 0, 0)]), (-1, [((1 : ℝ), 1, 1)])]).head? =
      some [((1 : ℝ), 1, 1)] ∧
    ([((1 : ℝ), 1, 1)] : Contour) ≠ [((0 : ℝ), 0, 0)] := by
  constructor
  · rfl
  · intro hcontra
    have h1 : ((1 : ℝ), (1 : ℝ), (1 : ℝ)) = ((0 : ℝ), 0, 0) :=
      List.head_eq_of_cons_eq hcontra
    have h2 : (1 : ℝ) = 0 := congrArg Prod.fst h1
    norm_num at h2

/-- C4 amended: `getUpDipContours` returns the synthetic contours
sorted ascending by key — with keys 0, -1, ..., -(N-1) that is the
FARTHEST contour (index N-1) first and the index-0 contour (closest
to the reference) last; `getAllContours` returns exactly those
followed by the real contours whose key is a multiple of the spacing
sorted ascending, so with a single synthetic contour and real
contours at keys 10 and 20 it returns [updip_0, real_10, real_20]. -/
theorem getAllContours_order :
    (∀ (N : Nat) (f : Nat → Contour),
      getUpDipContours
          ((List.range N).map (fun (i : Nat) => (-(i : Int), f i))) =
        ((List.range N).reverse).map f) ∧
    (∀ u0 r10 r20 : Contour,
      getAllContours [(10, r10), (20, r20)] [((0 : Int), u0)] 10 =
        [u0, r10, r20]) := by
  refine ⟨getUpDipContours_on_range, fun u0 r10 r20 => ?_⟩
  show getUpDipContours [((0 : Int), u0)] ++
      getContours [(10, r10), (20, r20)] 10 = [u0, r10, r20]
  have h1 : getUpDipContours [((0 : Int), u0)] = [u0] := by rfl
  have h2 : getContours [(10, r10), (20, r20)] 10 = [r10, r20] := by
    rw [getContours]
    norm_num [pyModZero, List.filter, List.insertionSort, List.orderedInsert,
      List.lookup, show (((20 : Int) == (10 : Int))) = false from by decide]
  rw [h1, h2]
  rfl

/-- C3: with base horizontal distance d > 0 and maximum extension
distance m > 0, the generated count is ceil(log2(m/d + 1)) and it is
the minimal count whose geometric reach (2^n - 1)*d meets m:
(2^N - 1)*d >= m while (2^(N-1) - 1)*d < m. -/
theorem numUpDipContours_minimal (d m : ℝ) (hd : 0 < d) (hm : 0 < m) :
    numUpDipContours d m = ⌈Real.logb 2 (m / d + 1)⌉ ∧
    ((2 : ℝ) ^ (numUpDipContours d m) - 1) * d ≥ m ∧
    ((2 : ℝ) ^ (numUpDipContours d m - 1) - 1) * d < m := by
  have hxpos : 0 < m / d := div_pos hm hd
  have hx : 1 < m / d + 1 := by linarith
  have heq : numUpDipContours d m = ⌈Real.logb 2 (m / d + 1)⌉ := rfl
  refine ⟨heq, ?_, ?_⟩
  · rw [heq, ge_iff_le, ← div_le_iff hd]
    have h1 : Real.logb 2 (m / d + 1) ≤ (⌈Real.logb 2 (m / d + 1)⌉ : ℝ) :=
      Int.le_ceil _
    have h2 : (2 : ℝ) ^ (Real.logb 2 (m / d + 1)) ≤
        (2 : ℝ) ^ ((⌈Real.logb 2 (m / d + 1)⌉ : ℤ) : ℝ) :=
      Real.rpow_le_rpow_of_exponent_le one_le_two h1
    rw [Real.rpow_logb (by norm_num) (by norm_num) (by linarith),
      Real.rpow_intCast] at h2
    linarith
  · rw [heq, ← lt_div_iff hd]
    have h1 : ((⌈Real.logb 2 (m / d + 1)⌉ - 1 : ℤ) : ℝ) <
        Real.logb 2 (m / d + 1) := by
      have := Int.ceil_lt_add_one (Real.logb 2 (m / d + 1))
      push_cast
      linarith
    have h2 : (2 : ℝ) ^ (((⌈Real.logb 2 (m / d + 1)⌉ - 1 : ℤ)) : ℝ) <
        (2 : ℝ) ^ (Real.logb 2 (m / d + 1)) :=
      Real.rpow_lt_rpow_of_exponent_lt one_lt_two h1
    rw [Real.rpow_logb (by norm_num) (by norm_num) (by linarith),
      Real.rpow_intCast] at h2
    linarith

/-- Witness for C3 at d = 1, m = 1 (one synthetic contour reaching
exactly the requested distance). -/
theorem numUpDipContours_minimal_witness :
    ((0 : ℝ) < 1 ∧ (0 : ℝ) < 1) ∧
    (numUpDipContours 1 1 = ⌈Real.logb 2 ((1 : ℝ) / 1 + 1)⌉ ∧
      ((2 : ℝ) ^ (numUpDipContours 1 1) - 1) * 1 ≥ 1 ∧
      ((2 : ℝ) ^ (numUpDipContours 1 1 - 1) - 1) * 1 < 1) :=
  ⟨⟨by norm_num, by norm_num⟩,
    numUpDipContours_minimal 1 1 (by norm_num) (by norm_num)⟩

/-- C2: each synthetic up-dip contour with 0-based index i is a copy
of the minimal-key reference contour whose (x, y) positions are
offset by exactly (2^i*dx, 2^i*dy), with
dx = -distHoriz*cos(strikeAngle), dy = distHoriz*sin(strikeAngle),
distHoriz = (elevation - zTop)/tan(dipAngle) (angles converted from
degrees), every point's depth set exactly to the target elevation,
and the contours stored under the keys 0, -1, -2, .... -/
theorem addUpDipContours_spec (contours : ContourSet)
    (elevKm strikeDeg dipDeg extendDistKm distHoriz dx dy : ℝ)
    (key : Int) (contourTop : Contour) (p0 : Pt)
    (hmin : (contours.map Prod.fst).min? = some key)
    (hlook : contours.lookup key = some contourTop)
    (hhead : contourTop.head? = some p0)
    (htan : Real.tan (dipDeg * Real.pi / 180) ≠ 0)
    (hdhdef : distHoriz =
      (elevKm * 1000 - p0.2.2) / Real.tan (dipDeg * Real.pi / 180))
    (hdxdef : dx = -distHoriz * Real.cos (strikeDeg * Real.pi / 180))
    (hdydef : dy = distHoriz * Real.sin (strikeDeg * Real.pi / 180))
    (hdh : distHoriz ≠ 0)
    (harg : 0 < extendDistKm * 1000 / distHoriz + 1) :
    ∃ out : ContourSet,
      addUpDipContours contours elevKm strikeDeg dipDeg extendDistKm =
        .ok out ∧
      out.map Prod.fst =
        (List.range (numUpDipContours distHoriz (extendDistKm * 1000)).toNat).map
          (fun (i : Nat) => -(i : Int)) ∧
      ∀ i : Nat, i < (numUpDipContours distHoriz (extendDistKm * 1000)).toNat →
        out.lookup (-(i : Int)) = some (contourTop.map (fun p =>
          (p.1 + (2 : ℝ) ^ i * dx, p.2.1 + (2 : ℝ) ^ i * dy,
            elevKm * 1000))) := by
  subst hdhdef hdxdef hdydef
  have heval : addUpDipContours contours elevKm strikeDeg dipDeg extendDistKm =
      .ok ((List.range (numUpDipContours
          ((elevKm * 1000 - p0.2.2) / Real.tan (dipDeg * Real.pi / 180))
          (extendDistKm * 1000)).toNat).map (fun (i : Nat) =>
        (-(i : Int), contourTop.map (fun p =>
          (p.1 + (2 : ℝ) ^ i *
              (-((elevKm * 1000 - p0.2.2) /
                  Real.tan (dipDeg * Real.pi / 180)) *
                Real.cos (strikeDeg * Real.pi / 180)),
            p.2.1 + (2 : ℝ) ^ i *
              ((elevKm * 1000 - p0.2.2) /
                  Real.tan (dipDeg * Real.pi / 180) *
                Real.sin (strikeDeg * Real.pi / 180)),
            elevKm * 1000))))) := by
    rw [addUpDipContours]
    simp only [hmin, hlook, hhead]
    rw [if_neg htan, if_neg hdh, if_neg (not_le.mpr harg)]
  refine ⟨_, heval, ?_, ?_⟩
  · rw [List.map_map]
    apply List.map_congr_left
    intro a _
    rfl
  · intro i hi
    have hform : ((List.range (numUpDipContours
        ((elevKm * 1000 - p0.2.2) / Real.tan (dipDeg * Real.pi / 180))
        (extendDistKm * 1000)).toNat).map (fun (j : Nat) =>
          (-(j : Int), contourTop.map (fun p =>
            (p.1 + (2 : ℝ) ^ j *
                (-((elevKm * 1000 - p0.2.2) /
                    Real.tan (dipDeg * Real.pi / 180)) *
                  Real.cos (strikeDeg * Real.pi / 180)),
              p.2.1 + (2 : ℝ) ^ j *
                ((elevKm * 1000 - p0.2.2) /
                    Real.tan (dipDeg * Real.pi / 180) *
                  Real.sin (strikeDeg * Real.pi / 180)),
              elevKm * 1000))))) =
        ((List.range (numUpDipContours
          ((elevKm * 1000 - p0.2.2) / Real.tan (dipDeg * Real.pi / 180))
          (extendDistKm * 1000)).toNat).map (fun (j : Nat) =>
            ((0 : Int) - (j : Int), contourTop.map (fun p =>
              (p.1 + (2 : ℝ) ^ j *
                  (-((elevKm * 1000 - p0.2.2) /
                      Real.tan (dipDeg * Real.pi / 180)) *
                    Real.cos (strikeDeg * Real.pi / 180)),
                p.2.1 + (2 : ℝ) ^ j *
                  ((elevKm * 1000 - p0.2.2) /
                      Real.tan (dipDeg * Real.pi / 180) *
                    Real.sin (strikeDeg * Real.pi / 180)),
                elevKm * 1000))))) := by
      apply List.map_congr_left
      intro b _
      simp
    rw [hform]
    have hl := lookup_shifted_range
      (numUpDipContours
        ((elevKm * 1000 - p0.2.2) / Real.tan (dipDeg * Real.pi / 180))
        (extendDistKm * 1000)).toNat (0 : Int)
      (fun j => contourTop.map (fun p =>
        (p.1 + (2 : ℝ) ^ j *
            (-((elevKm * 1000 - p0.2.2) /
                Real.tan (dipDeg * Real.pi / 180)) *
              Real.cos (strikeDeg * Real.pi / 180)),
          p.2.1 + (2 : ℝ) ^ j *
            ((elevKm * 1000 - p0.2.2) /
                Real.tan (dipDeg * Real.pi / 180) *
              Real.sin (strikeDeg * Real.pi / 180)),
          elevKm * 1000))) i hi
    simpa using hl

/-- Witness for C2: one reference contour at depth key 10 whose first
point has depth 0, target elevation 1 km, strike 0, dip 45 degrees,
extension 1 km, giving distHoriz = 1000, dx = -1000, dy = 0. -/
theorem addUpDipContours_spec_witness :
    ((([((10 : Int), [((1 : ℝ), 2, 0)])] : ContourSet).map Prod.fst).min? =
        some 10 ∧
      ([((10 : Int), [((1 : ℝ), 2, 0)])] : ContourSet).lookup 10 =
        some [((1 : ℝ), 2, 0)] ∧
      ([((1 : ℝ), 2, 0)] : Contour).head? = some ((1 : ℝ), 2, 0) ∧
      Real.tan ((45 : ℝ) * Real.pi / 180) ≠ 0 ∧
      (1000 : ℝ) = ((1 : ℝ) * 1000 - 0) / Real.tan ((45 : ℝ) * Real.pi / 180) ∧
      (-1000 : ℝ) = -(1000 : ℝ) * Real.cos ((0 : ℝ) * Real.pi / 180) ∧
      (0 : ℝ) = (1000 : ℝ) * Real.sin ((0 : ℝ) * Real.pi / 180) ∧
      (1000 : ℝ) ≠ 0 ∧
      (0 : ℝ) < (1 : ℝ) * 1000 / 1000 + 1) ∧
    (∃ out : ContourSet,
      addUpDipContours [((10 : Int), [((1 : ℝ), 2, 0)])] 1 0 45 1 =
        .ok out ∧
      out.map Prod.fst =
        (List.range (numUpDipContours 1000 ((1 : ℝ) * 1000)).toNat).map
          (fun (i : Nat) => -(i : Int)) ∧
      ∀ i : Nat, i < (numUpDipContours 1000 ((1 : ℝ) * 1000)).toNat →
        out.lookup (-(i : Int)) = some (([((1 : ℝ), 2, 0)] : Contour).map
          (fun p => (p.1 + (2 : ℝ) ^ i * (-1000 : ℝ),
            p.2.1 + (2 : ℝ) ^ i * (0 : ℝ), (1 : ℝ) * 1000)))) := by
  have h45 : (45 : ℝ) * Real.pi / 180 = Real.pi / 4 := by ring
  have htan45 : Real.tan ((45 : ℝ) * Real.pi / 180) = 1 := by
    rw [h45, Real.tan_pi_div_four]
  have h0 : ((0 : ℝ) * Real.pi / 180) = 0 := by ring
  have h4 : Real.tan ((45 : ℝ) * Real.pi / 180) ≠ 0 := by
    rw [htan45]
    norm_num
  have h5 : (1000 : ℝ) =
      ((1 : ℝ) * 1000 - 0) / Real.tan ((45 : ℝ) * Real.pi / 180) := by
    rw [htan45]
    norm_num
  have h6 : (-1000 : ℝ) = -(1000 : ℝ) * Real.cos ((0 : ℝ) * Real.pi / 180) := by
    rw [h0, Real.cos_zero]
    norm_num
  have h7 : (0 : ℝ) = (1000 : ℝ) * Real.sin ((0 : ℝ) * Real.pi / 180) := by
    rw [h0, Real.sin_zero]
    norm_num
  exact ⟨⟨rfl, rfl, rfl, h4, h5, h6, h7, by norm_num, by norm_num⟩,
    addUpDipContours_spec [((10 : Int), [((1 : ℝ), 2, 0)])] 1 0 45 1
      1000 (-1000) 0 10 [((1 : ℝ), 2, 0)] ((1 : ℝ), 2, 0)
      rfl rfl rfl h4 h5 h6 h7 (by norm_num) (by norm_num)⟩

/-- C8 counterexample: a NEGATIVE base horizontal distance need not
raise anything.  With the reference depth 2000 m, target elevation
1 km and dip 45 degrees, distHoriz = -1000 < 0, yet with a 0.5 km
extension distance the log argument is 1/2 > 0, so
`addUpDipContours` raises no error at all: numContours = -1 and the
synthetic contour set is simply empty. -/
theorem addUpDipContours_negative_distHoriz_no_error :
    addUpDipContours [((10 : Int), [((1 : ℝ), 2, 2000)])] 1 0 45 (1 / 2) =
      .ok [] ∧
    ((1 : ℝ) * 1000 - 2000) / Real.tan ((45 : ℝ) * Real.pi / 180) < 0 := by
  have h45 : (45 : ℝ) * Real.pi / 180 = Real.pi / 4 := by ring
  have htan45 : Real.tan ((45 : ℝ) * Real.pi / 180) = 1 := by
    rw [h45, Real.tan_pi_div_four]
  have hd : ((1 : ℝ) * 1000 - 2000) / Real.tan ((45 : ℝ) * Real.pi / 180) =
      -1000 := by
    rw [htan45]
    norm_num
  constructor
  · rw [addUpDipContours]
    simp only [show (([((10 : Int),
        [((1 : ℝ), 2, 2000)])] : ContourSet).map Prod.fst).min? =
          some 10 from rfl,
      show ([((10 : Int), [((1 : ℝ), 2, 2000)])] : ContourSet).lookup 10 =
          some [((1 : ℝ), 2, 2000)] from rfl,
      show ([((1 : ℝ), 2, 2000)] : Contour).head? =
          some ((1 : ℝ), 2, 2000) from rfl]
    rw [if_neg (by rw [htan45]; norm_num)]
    rw [if_neg (by rw [hd]; norm_num)]
    rw [if_neg (by rw [hd]; norm_num)]
    have hN : numUpDipContours
        (((1 : ℝ) * 1000 - 2000) / Real.tan ((45 : ℝ) * Real.pi / 180))
        ((1 : ℝ) / 2 * 1000) = -1 := by
      rw [numUpDipContours, hd]
      have harg : (1 : ℝ) / 2 * 1000 / (-1000) + 1 = 1 / 2 := by norm_num
      rw [harg]
      have hlog : Real.log ((1 : ℝ) / 2) = -Real.log 2 := by
        rw [one_div, Real.log_inv]
      rw [hlog, neg_div, div_self (ne_of_gt (Real.log_pos one_lt_two))]
      have hcast : (-1 : ℝ) = ((-1 : ℤ) : ℝ) := by norm_num
      rw [hcast, Int.ceil_intCast]
    rw [hN]
    rfl
  · rw [hd]
    norm_num

/-- C8 amended: with a well-formed contour set and a non-degenerate
dip, the up-dip extension raises an error (ZeroDivisionError when the
base horizontal distance is exactly zero, ValueError from math.log
when the logarithm argument is non-positive) whenever
distHoriz = 0 or the log argument is non-positive — and
`addUpDipContours` itself emits no journal output, so nothing is
written in that case; but a NEGATIVE distHoriz whose log argument
stays positive raises nothing and yields an empty synthetic set. -/
theorem addUpDipContours_error_conditions (contours : ContourSet)
    (elevKm strikeDeg dipDeg extendDistKm : ℝ)
    (key : Int) (contourTop : Contour) (p0 : Pt)
    (hmin : (contours.map Prod.fst).min? = some key)
    (hlook : contours.lookup key = some contourTop)
    (hhead : contourTop.head? = some p0)
    (htan : Real.tan (dipDeg * Real.pi / 180) ≠ 0) :
    (((elevKm * 1000 - p0.2.2) / Real.tan (dipDeg * Real.pi / 180) = 0 ∨
        extendDistKm * 1000 /
            ((elevKm * 1000 - p0.2.2) / Real.tan (dipDeg * Real.pi / 180)) +
          1 ≤ 0) →
      ∃ e : PyErr, addUpDipContours contours elevKm strikeDeg dipDeg
        extendDistKm = .error e) ∧
    ((elevKm * 1000 - p0.2.2) / Real.tan (dipDeg * Real.pi / 180) < 0 →
      0 < extendDistKm * 1000 /
          ((elevKm * 1000 - p0.2.2) / Real.tan (dipDeg * Real.pi / 180)) + 1 →
      0 < extendDistKm →
      addUpDipContours contours elevKm strikeDeg dipDeg extendDistKm =
        .ok []) := by
  constructor
  · intro hcond
    rw [addUpDipContours]
    simp only [hmin, hlook, hhead]
    rw [if_neg htan]
    by_cases hd : (elevKm * 1000 - p0.2.2) /
        Real.tan (dipDeg * Real.pi / 180) = 0
    · rw [if_pos hd]
      exact ⟨.zeroDivisionError, rfl⟩
    · rw [if_neg hd]
      have harg : extendDistKm * 1000 /
          ((elevKm * 1000 - p0.2.2) / Real.tan (dipDeg * Real.pi / 180)) +
            1 ≤ 0 := by
        rcases hcond with h | h
        · exact absurd h hd
        · exact h
      rw [if_pos harg]
      exact ⟨.valueError, rfl⟩
  · intro hdneg hargpos hext
    rw [addUpDipContours]
    simp only [hmin, hlook, hhead]
    rw [if_neg htan, if_neg (ne_of_lt hdneg), if_neg (not_le.mpr hargpos)]
    have hlt1 : extendDistKm * 1000 /
        ((elevKm * 1000 - p0.2.2) / Real.tan (dipDeg * Real.pi / 180)) +
          1 < 1 := by
      have hratio : extendDistKm * 1000 /
          ((elevKm * 1000 - p0.2.2) / Real.tan (dipDeg * Real.pi / 180)) <
            0 :=
        div_neg_of_pos_of_neg (by linarith) hdneg
      linarith
    have hlogneg : Real.log (extendDistKm * 1000 /
        ((elevKm * 1000 - p0.2.2) / Real.tan (dipDeg * Real.pi / 180)) +
          1) < 0 :=
      Real.log_neg hargpos hlt1
    have hN : numUpDipContours
        ((elevKm * 1000 - p0.2.2) / Real.tan (dipDeg * Real.pi / 180))
        (extendDistKm * 1000) ≤ 0 := by
      rw [numUpDipContours]
      have : Real.log (extendDistKm * 1000 /
          ((elevKm * 1000 - p0.2.2) / Real.tan (dipDeg * Real.pi / 180)) +
            1) / Real.log 2 ≤ 0 :=
        le_of_lt (div_neg_of_neg_of_pos hlogneg (Real.log_pos one_lt_two))
      calc ⌈Real.log (extendDistKm * 1000 /
            ((elevKm * 1000 - p0.2.2) / Real.tan (dipDeg * Real.pi / 180)) +
              1) / Real.log 2⌉ ≤ ⌈(0 : ℝ)⌉ := Int.ceil_le_ceil this
        _ = 0 := Int.ceil_zero
    have hNtoNat : (numUpDipContours
        ((elevKm * 1000 - p0.2.2) / Real.tan (dipDeg * Real.pi / 180))
        (extendDistKm * 1000)).toNat = 0 := Int.toNat_eq_zero.mpr hN
    rw [hNtoNat]
    rfl

/-- Witness for the amended C8: reference depth 1000 m and target
elevation 1 km give distHoriz = 0, so the error branch applies. -/
theorem addUpDipContours_error_conditions_witness :
    ((([((10 : Int), [((1 : ℝ), 2, 1000)])] : ContourSet).map Prod.fst).min? =
        some 10 ∧
      ([((10 : Int), [((1 : ℝ), 2, 1000)])] : ContourSet).lookup 10 =
        some [((1 : ℝ), 2, 1000)] ∧
      ([((1 : ℝ), 2, 1000)] : Contour).head? = some ((1 : ℝ), 2, 1000) ∧
      Real.tan ((45 : ℝ) * Real.pi / 180) ≠ 0) ∧
    ((((1 : ℝ) * 1000 - 1000) / Real.tan ((45 : ℝ) * Real.pi / 180) = 0 ∨
        (1 : ℝ) * 1000 /
            (((1 : ℝ) * 1000 - 1000) / Real.tan ((45 : ℝ) * Real.pi / 180)) +
          1 ≤ 0) →
      ∃ e : PyErr,
        addUpDipContours [((10 : Int), [((1 : ℝ), 2, 1000)])] 1 0 45 1 =
          .error e) ∧
    (((1 : ℝ) * 1000 - 1000) / Real.tan ((45 : ℝ) * Real.pi / 180) < 0 →
      0 < (1 : ℝ) * 1000 /
          (((1 : ℝ) * 1000 - 1000) / Real.tan ((45 : ℝ) * Real.pi / 180)) + 1 →
      (0 : ℝ) < 1 →
      addUpDipContours [((10 : Int), [((1 : ℝ), 2, 1000)])] 1 0 45 1 =
        .ok []) := by
  have h45 : (45 : ℝ) * Real.pi / 180 = Real.pi / 4 := by ring
  have htan45 : Real.tan ((45 : ℝ) * Real.pi / 180) ≠ 0 := by
    rw [h45, Real.tan_pi_div_four]
    norm_num
  have hmain := addUpDipContours_error_conditions
    [((10 : Int), [((1 : ℝ), 2, 1000)])] 1 0 45 1
    10 [((1 : ℝ), 2, 1000)] ((1 : ℝ), 2, 1000) rfl rfl rfl htan45
  exact ⟨⟨rfl, rfl, rfl, htan45⟩, hmain.1, hmain.2⟩

theorem forall₂_keys {l1 l2 : ContourSet}
    (h : List.Forall₂ entryRel l1 l2) :
    l1.map Prod.fst = l2.map Prod.fst := by
  induction h with
  | nil => rfl
  | cons hab _ ih =>
    simp only [List.map_cons, ih, hab.1]

theorem forall₂_lookup {l1 l2 : ContourSet}
    (h : List.Forall₂ entryRel l1 l2) (k : Int) :
    (l1.lookup k = none ∧ l2.lookup k = none) ∨
      ∃ v1 v2, l1.lookup k = some v1 ∧ l2.lookup k = some v2 ∧
        List.Forall₂ (fun (p q : Pt) => p.1 = q.1 ∧ p.2.1 = q.2.1) v1 v2 := by
  induction h with
  | nil => exact Or.inl ⟨rfl, rfl⟩
  | @cons a b t1 t2 hab _ ih =>
    by_cases hk : k == a.1
    · refine Or.inr ⟨a.2, b.2, ?_, ?_, hab.2⟩
      · match a with
        | (ka, va) => simp only [List.lookup, hk]
      · match b with
        | (kb, vb) =>
          have : (k == kb) = true := by
            have h1 : a.1 = kb := hab.1
            rw [← h1]
            exact hk
          simp only [List.lookup, this]
    · have hk2 : (k == b.1) = false := by
        rw [← hab.1]
        simpa using hk
      match a, b with
      | (ka, va), (kb, vb) =>
        have hka : (k == ka) = false := by simpa using hk
        simp only [List.lookup, hka, hk2]
        simpa using ih

theorem forall₂_head {R : Pt → Pt → Prop} {l1 l2 : Contour}
    (h : List.Forall₂ R l1 l2) :
    (l1.head? = none ∧ l2.head? = none) ∨
      ∃ a b, l1.head? = some a ∧ l2.head? = some b ∧ R a b := by
  cases h with
  | nil => exact Or.inl ⟨rfl, rfl⟩
  | cons hab _ => exact Or.inr ⟨_, _, rfl, rfl, hab⟩

theorem forall₂_map_eq {R : Pt → Pt → Prop} {l1 l2 : Contour}
    {β : Type} (f : Pt → β)
    (h : List.Forall₂ R l1 l2) (hf : ∀ a b, R a b → f a = f b) :
    l1.map f = l2.map f := by
  induction h with
  | nil => rfl
  | cons hab _ ih => simp only [List.map_cons, ih, hf _ _ hab]

/-- C10: the geometry of the up-dip extension depends on the input
depths only through the depth of the FIRST point of the minimal-key
contour.  Two contour sets with the same keys (in the same backing
order) and pointwise-equal (x, y) coordinates that agree on that one
depth value produce identical results — every other point's depth is
irrelevant. -/
theorem addUpDipContours_depth_independence (c1 c2 : ContourSet)
    (elevKm strikeDeg dipDeg extendDistKm : ℝ)
    (hrel : List.Forall₂ entryRel c1 c2)
    (hz : zTopOf c1 = zTopOf c2) :
    addUpDipContours c1 elevKm strikeDeg dipDeg extendDistKm =
      addUpDipContours c2 elevKm strikeDeg dipDeg extendDistKm := by
  have hkeys : c1.map Prod.fst = c2.map Prod.fst := forall₂_keys hrel
  rw [zTopOf, zTopOf] at hz
  rw [addUpDipContours, addUpDipContours, ← hkeys]
  cases hmin : (c1.map Prod.fst).min? with
  | none => rfl
  | some k =>
    rcases forall₂_lookup hrel k with ⟨h1, h2⟩ | ⟨v1, v2, h1, h2, hv⟩
    · simp only [h1, h2]
    · simp only [h1, h2]
      rcases forall₂_head hv with ⟨g1, g2⟩ | ⟨p1, p2, g1, g2, hp⟩
      · simp only [g1, g2]
      · simp only [g1, g2]
        have hzeq : p1.2.2 = p2.2.2 := by
          rw [hmin] at hz
          rw [← hkeys, hmin] at hz
          simp only [Option.some_bind, h1, h2, g1, g2, Option.map_some'] at hz
          exact Option.some_injective _ hz
        have hmapeq : ∀ i : Nat,
            v1.map (fun p =>
              (p.1 + (2 : ℝ) ^ i *
                (-((elevKm * 1000 - p1.2.2) /
                    Real.tan (dipDeg * Real.pi / 180)) *
                  Real.cos (strikeDeg * Real.pi / 180)),
               p.2.1 + (2 : ℝ) ^ i *
                ((elevKm * 1000 - p1.2.2) /
                    Real.tan (dipDeg * Real.pi / 180) *
                  Real.sin (strikeDeg * Real.pi / 180)),
               elevKm * 1000)) =
            v2.map (fun p =>
              (p.1 + (2 : ℝ) ^ i *
                (-((elevKm * 1000 - p1.2.2) /
                    Real.tan (dipDeg * Real.pi / 180)) *
                  Real.cos (strikeDeg * Real.pi / 180)),
               p.2.1 + (2 : ℝ) ^ i *
                ((elevKm * 1000 - p1.2.2) /
                    Real.tan (dipDeg * Real.pi / 180) *
                  Real.sin (strikeDeg * Real.pi / 180)),
               elevKm * 1000)) := by
          intro i
          apply forall₂_map_eq _ hv
          intro a b hab
          rw [hab.1, hab.2]
        rw [← hzeq]
        by_cases htan : Real.tan (dipDeg * Real.pi / 180) = 0
        · rw [if_pos htan, if_pos htan]
        · rw [if_neg htan, if_neg htan]
          by_cases hd : (elevKm * 1000 - p1.2.2) /
              Real.tan (dipDeg * Real.pi / 180) = 0
          · rw [if_pos hd, if_pos hd]
          · rw [if_neg hd, if_neg hd]
            by_cases ha : extendDistKm * 1000 /
                ((elevKm * 1000 - p1.2.2) /
                  Real.tan (dipDeg * Real.pi / 180)) + 1 ≤ 0
            · rw [if_pos ha, if_pos ha]
            · rw [if_neg ha, if_neg ha]
              congr 1
              apply List.map_congr_left
              intro i _
              rw [hmapeq i]

/-- Witness for C10: two one-contour sets equal except for the depth
of the SECOND point (5 vs 7) produce identical extension results. -/
theorem addUpDipContours_depth_independence_witness :
    (List.Forall₂ entryRel
        ([((10 : Int), [((0 : ℝ), 0, 0), ((1 : ℝ), 1, 5)])] : ContourSet)
        ([((10 : Int), [((0 : ℝ), 0, 0), ((1 : ℝ), 1, 7)])] : ContourSet) ∧
      zTopOf [((10 : Int), [((0 : ℝ), 0, 0), ((1 : ℝ), 1, 5)])] =
        zTopOf [((10 : Int), [((0 : ℝ), 0, 0), ((1 : ℝ), 1, 7)])]) ∧
    addUpDipContours
        [((10 : Int), [((0 : ℝ), 0, 0), ((1 : ℝ), 1, 5)])] 1 0 45 1 =
      addUpDipContours
        [((10 : Int), [((0 : ℝ), 0, 0), ((1 : ℝ), 1, 7)])] 1 0 45 1 := by
  have hrel : List.Forall₂ entryRel
      ([((10 : Int), [((0 : ℝ), 0, 0), ((1 : ℝ), 1, 5)])] : ContourSet)
      ([((10 : Int), [((0 : ℝ), 0, 0), ((1 : ℝ), 1, 7)])] : ContourSet) :=
    List.Forall₂.cons
      ⟨rfl, List.Forall₂.cons ⟨rfl, rfl⟩
        (List.Forall₂.cons ⟨rfl, rfl⟩ List.Forall₂.nil)⟩
      List.Forall₂.nil
  exact ⟨⟨hrel, rfl⟩,
    addUpDipContours_depth_independence _ _ 1 0 45 1 hrel rfl⟩

end SurfJou
